import Mathlib

/-!
Verification of the `EventsModule` of the hlmr-sdk-js repository
(`src/src/modules/events.ts`, the in-band-auth variant whose class fields
include `bearerToken`, `authResolve`, `authReject`).

The TypeScript class is shallowly embedded as pure Lean state machines:

* `ModState` — module-level fields (`reconnectAttempts`, timer handles,
  `isManualDisconnect`, the pending-subscription map, ...) together with
  ghost traces (frames, close calls, emitted events, scheduled delays)
  recording the side effects of each handler.  `handleClose`,
  `scheduleReconnect`, `disconnect`, `cleanup`, `connectCall` and
  `handleConnectedMsg` mirror the corresponding handlers line by line.
* `RegistryState` / `regStep` — the subscription registry
  (`subscribe`, `unsubscribe`, `_handleSubscriptionConfirmed`,
  the confirmation timeout and `_cleanup`).
* `ConnectRunState` / `connStep` — one `_connect()` call: the
  connection-timeout timer, `onopen`, `onmessage` (`connected` /
  `auth_error`), `onerror`, `onclose`, with the returned promise modelled
  as a settle-once cell (JS promise semantics).
* `emitToListeners` — `_emit`'s forEach/try/catch loop.
* `MapHeap` — a tiny store model for the aliasing behaviour of
  `getSubscriptions()` (`new Map(this.subscriptions)`).

JS `Map` objects (string keys, insertion order, unique keys) are embedded
as association lists via `mapGet` / `mapSet` / `mapDelete` / `mapHas`.
-/

namespace HlmrSdk

/-! ## Association-list model of JS `Map` -/

def mapGet {α : Type} : List (String × α) → String → Option α
  | [], _ => none
  | p :: rest, k => if p.1 = k then some p.2 else mapGet rest k

def mapHas {α : Type} (m : List (String × α)) (k : String) : Bool :=
  (mapGet m k).isSome

def mapSet {α : Type} : List (String × α) → String → α → List (String × α)
  | [], k, v => [(k, v)]
  | p :: rest, k, v => if p.1 = k then (k, v) :: rest else p :: mapSet rest k v

def mapDelete {α : Type} : List (String × α) → String → List (String × α)
  | [], _ => []
  | p :: rest, k => if p.1 = k then mapDelete rest k else p :: mapDelete rest k

theorem mapGet_mapDelete_self {α : Type} (m : List (String × α)) (k : String) :
    mapGet (mapDelete m k) k = none := by
  induction m with
  | nil => rfl
  | cons p rest ih =>
    by_cases h : p.1 = k
    · simpa [mapDelete, h] using ih
    · simp [mapDelete, mapGet, h, ih]

theorem mapGet_mapDelete_ne {α : Type} (m : List (String × α)) {k k' : String}
    (h : k' ≠ k) : mapGet (mapDelete m k) k' = mapGet m k' := by
  induction m with
  | nil => rfl
  | cons p rest ih =>
    by_cases hp : p.1 = k
    · simp [mapDelete, mapGet, hp, h.symm, ih]
    · simp [mapDelete, mapGet, hp, ih]

theorem mapGet_mapSet_self {α : Type} (m : List (String × α)) (k : String) (v : α) :
    mapGet (mapSet m k v) k = some v := by
  induction m with
  | nil => simp [mapSet, mapGet]
  | cons p rest ih =>
    by_cases h : p.1 = k
    · simp [mapSet, mapGet, h]
    · simp [mapSet, mapGet, h, ih]

theorem mapGet_mapSet_ne {α : Type} (m : List (String × α)) {k k' : String} (v : α)
    (h : k' ≠ k) : mapGet (mapSet m k v) k' = mapGet m k' := by
  induction m with
  | nil => simp [mapSet, mapGet, h.symm]
  | cons p rest ih =>
    by_cases hp : p.1 = k
    · simp [mapSet, mapGet, hp, h.symm]
    · simp [mapSet, mapGet, hp, ih]

theorem mapHas_mem_keys {α : Type} (m : List (String × α)) (k : String) :
    mapHas m k = true ↔ k ∈ m.map Prod.fst := by
  induction m with
  | nil => simp [mapHas, mapGet]
  | cons p rest ih =>
    by_cases h : p.1 = k
    · simp [mapHas, mapGet, h]
    · have h' : ¬ k = p.1 := fun hh => h hh.symm
      simpa [mapHas, mapGet, h, h'] using ih

theorem keys_mapDelete_sublist {α : Type} (m : List (String × α)) (k : String) :
    ((mapDelete m k).map Prod.fst).Sublist (m.map Prod.fst) := by
  induction m with
  | nil => simp [mapDelete]
  | cons p rest ih =>
    by_cases h : p.1 = k
    · simp only [mapDelete, h, if_pos, List.map_cons]
      exact ih.trans (List.sublist_cons_self _ _)
    · simpa [mapDelete, h] using List.Sublist.cons₂ p.1 ih

theorem mem_keys_mapSet {α : Type} (m : List (String × α)) (k k' : String) (v : α)
    (hk' : k' ∈ (mapSet m k v).map Prod.fst) : k' = k ∨ k' ∈ m.map Prod.fst := by
  induction m with
  | nil =>
    simp [mapSet] at hk'
    exact Or.inl hk'
  | cons p rest ih =>
    by_cases hq : p.1 = k
    · simp [mapSet, hq] at hk'
      rcases hk' with h1 | h1
      · exact Or.inl h1
      · exact Or.inr (by simp [h1])
    · simp only [mapSet, hq, if_neg, not_false_iff, List.map_cons, List.mem_cons] at hk'
      rcases hk' with h1 | h1
      · exact Or.inr (by simp [h1])
      · rcases ih h1 with h2 | h2
        · exact Or.inl h2
        · exact Or.inr (by simp [h2])

theorem keys_mapSet_nodup {α : Type} (m : List (String × α)) (k : String) (v : α)
    (h : (m.map Prod.fst).Nodup) : ((mapSet m k v).map Prod.fst).Nodup := by
  induction m with
  | nil => simp [mapSet]
  | cons p rest ih =>
    simp only [List.map_cons, List.nodup_cons] at h
    by_cases hp : p.1 = k
    · simp only [mapSet, hp, if_pos, List.map_cons]
      exact List.nodup_cons.mpr ⟨by simpa [hp] using h.1, h.2⟩
    · simp only [mapSet, hp, if_neg, not_false_iff, List.map_cons, List.nodup_cons]
      refine ⟨fun hmem' => ?_, ih h.2⟩
      rcases mem_keys_mapSet rest k p.1 v hmem' with hh | hh
      · exact hp hh
      · exact h.1 hh

theorem nodup_keys_mapDelete {α : Type} (m : List (String × α)) (k : String)
    (h : (m.map Prod.fst).Nodup) : ((mapDelete m k).map Prod.fst).Nodup :=
  (keys_mapDelete_sublist m k).nodup h

/-! ## Configuration (`EventsModuleConfig`, `DEFAULT_CONFIG`) -/

structure EventsModuleConfig where
  pingInterval : Nat
  autoReconnect : Bool
  maxReconnectAttempts : Nat
  reconnectDelay : Nat
  maxReconnectDelay : Nat
  debug : Bool
deriving DecidableEq

def DEFAULT_CONFIG : EventsModuleConfig :=
  { pingInterval := 30000
    autoReconnect := true
    maxReconnectAttempts := 5
    reconnectDelay := 1000
    maxReconnectDelay := 30000
    debug := false }

/-! ## Shared small types -/

/-- A subscription record as stored in the durable table
(`{domain, resource, options?}`); the `filters`/`include_data` payload is
kept opaque. -/
structure SubInfo where
  domain : String
  resource : String
  options : Option String
deriving DecidableEq

/-- Argument of a client-issued `ws.close(...)` call. -/
inductive CloseArg
  | noCode
  | code (n : Nat)
deriving DecidableEq

/-- Outbound frames sent by the client (`ws.send(JSON.stringify(...))`). -/
inductive OutFrame
  | auth (token : String)
  | subscribe (id domain resource : String) (options : Option String)
  | unsubscribe (id : String)
  | ping
deriving DecidableEq

/-- Events delivered through `_emit` that the embedded handlers produce. -/
inductive EmitEvent
  | connectEv
  | disconnectEv
  | reconnecting (n : Nat)
  | errorMaxAttempts
  | errorWs
deriving DecidableEq

/-! ## Module-level state machine

Fields mirror the class fields of `EventsModule`; `closeCalls`,
`rejections`, `emits` and `scheduledDelays` are ghost traces of the side
effects (close codes issued, pending requests rejected with
`Connection closed`, events emitted, reconnect delays passed to
`setTimeout`). -/

structure ModState where
  wsPresent : Bool
  pingTimer : Bool
  reconnectTimer : Bool
  reconnectAttempts : Nat
  isConnecting : Bool
  isManualDisconnect : Bool
  pending : List (String × SubInfo)
  closeCalls : List CloseArg
  rejections : List String
  emits : List EmitEvent
  scheduledDelays : List Nat
deriving DecidableEq

def modInit : ModState :=
  { wsPresent := true
    pingTimer := false
    reconnectTimer := false
    reconnectAttempts := 0
    isConnecting := false
    isManualDisconnect := false
    pending := []
    closeCalls := []
    rejections := []
    emits := []
    scheduledDelays := [] }

/-- The delay computed inside `_scheduleReconnect`:
`Math.min(reconnectDelay * Math.pow(2, attempts - 1), maxReconnectDelay)`
for the (already incremented) attempt counter. -/
def reconnectBackoffDelay (cfg : EventsModuleConfig) (attempt : Nat) : Nat :=
  min (cfg.reconnectDelay * 2 ^ (attempt - 1)) cfg.maxReconnectDelay

/-- `_scheduleReconnect` (events.ts:1173-1206): refuse and emit the
terminal error when the counter has reached the maximum, otherwise
increment the counter, emit `reconnecting`, and schedule `_connect` after
the backoff delay. -/
def scheduleReconnect (cfg : EventsModuleConfig) (s : ModState) : ModState :=
  if cfg.maxReconnectAttempts ≤ s.reconnectAttempts then
    { s with emits := s.emits ++ [EmitEvent.errorMaxAttempts] }
  else
    let attempts := s.reconnectAttempts + 1
    { s with
        reconnectAttempts := attempts
        emits := s.emits ++ [EmitEvent.reconnecting attempts]
        reconnectTimer := true
        scheduledDelays := s.scheduledDelays ++ [reconnectBackoffDelay cfg attempts] }

/-- `ws.onclose` (events.ts:786-807), module-level effects: stop the ping
interval, clear `isConnecting`, emit `disconnect`, and schedule a
reconnect unless the closure was manual or auto-reconnect is off.  (The
auth-promise rejection of the same handler lives in the `_connect` run
machine below.) -/
def handleClose (cfg : EventsModuleConfig) (s : ModState) : ModState :=
  let s1 := { s with
      pingTimer := false
      isConnecting := false
      emits := s.emits ++ [EmitEvent.disconnectEv] }
  if !s1.isManualDisconnect && cfg.autoReconnect then scheduleReconnect cfg s1 else s1

/-- A run in which the socket involuntarily closes `k` times in a row
(each scheduled reconnect attempt fails and its `close` event fires the
next `_scheduleReconnect`). -/
def runCloses (cfg : EventsModuleConfig) (s : ModState) : Nat → ModState
  | 0 => s
  | Nat.succ k => runCloses cfg (handleClose cfg s) k

/-- `_cleanup` (events.ts:1230-1243): stop the ping interval, cancel the
pending reconnect timer, reject every pending subscription request with
`Connection closed`, clear the pending map. -/
def cleanup (s : ModState) : ModState :=
  { s with
      pingTimer := false
      reconnectTimer := false
      rejections := s.rejections ++ s.pending.map Prod.fst
      pending := [] }

/-- `disconnect()` (events.ts:820-832): flag the closure as manual, run
`_cleanup`, and close the socket with code 1000 when one is present. -/
def disconnect (s : ModState) : ModState :=
  let s1 := cleanup { s with isManualDisconnect := true }
  if s1.wsPresent then
    { s1 with closeCalls := s1.closeCalls ++ [CloseArg.code 1000], wsPresent := false }
  else s1

/-- The state mutations performed at the start of `connect()`
(events.ts:692-706) before `_connect` is entered. -/
def connectCall (s : ModState) : ModState :=
  { s with isConnecting := true, isManualDisconnect := false, reconnectAttempts := 0 }

/-- The `case 'connected'` branch of `_handleMessage`
(events.ts:1054-1074) at module level: clear `isConnecting`, start the
ping interval, run `_resubscribeAll` exactly when `reconnectAttempts > 0`,
then reset the counter.  The returned Bool records whether the replay was
triggered. -/
def handleConnectedMsg (s : ModState) : ModState × Bool :=
  ({ s with isConnecting := false, pingTimer := true, reconnectAttempts := 0 },
    s.reconnectAttempts != 0)

/-- `_resubscribeAll` (events.ts:1208-1228): the durable table is copied
and cleared, then every recorded subscription is re-requested through the
normal `subscribe` path (a fresh id per request, supplied by `ids`); the
per-request outcome (`outcomes i = true` means the replayed request was
confirmed, `false` that it timed out and the rejection was caught by the
`try/catch`) decides whether the entry is re-added to the rebuilt table.
Returns the replay frames sent and the rebuilt durable table. -/
def resubscribeAll (ids : Nat → String) (outcomes : Nat → Bool) :
    Nat → List (String × SubInfo) → List OutFrame × List (String × SubInfo)
  | _, [] => ([], [])
  | i, (_, info) :: rest =>
    let r := resubscribeAll ids outcomes (i + 1) rest
    (OutFrame.subscribe (ids i) info.domain info.resource info.options :: r.1,
      if outcomes i then (ids i, info) :: r.2 else r.2)

/-! ## Backoff lemmas -/

theorem reconnectBackoffDelay_mono (cfg : EventsModuleConfig) (m : Nat) :
    reconnectBackoffDelay cfg m ≤ reconnectBackoffDelay cfg (m + 1) := by
  unfold reconnectBackoffDelay
  refine min_le_min ?_ le_rfl
  exact Nat.mul_le_mul_left _ (Nat.pow_le_pow_right (by norm_num) (by omega))

theorem reconnectBackoffDelay_le_max (cfg : EventsModuleConfig) (m : Nat) :
    reconnectBackoffDelay cfg m ≤ cfg.maxReconnectDelay :=
  min_le_right _ _

theorem handleClose_fields (cfg : EventsModuleConfig) (s : ModState)
    (hman : s.isManualDisconnect = false) (hauto : cfg.autoReconnect = true)
    (hlt : s.reconnectAttempts < cfg.maxReconnectAttempts) :
    (handleClose cfg s).reconnectAttempts = s.reconnectAttempts + 1
      ∧ (handleClose cfg s).scheduledDelays
          = s.scheduledDelays ++ [reconnectBackoffDelay cfg (s.reconnectAttempts + 1)]
      ∧ (handleClose cfg s).emits
          = s.emits ++ [EmitEvent.disconnectEv,
              EmitEvent.reconnecting (s.reconnectAttempts + 1)]
      ∧ (handleClose cfg s).isManualDisconnect = false
      ∧ (handleClose cfg s).reconnectTimer = true := by
  have hnle : ¬ cfg.maxReconnectAttempts ≤ s.reconnectAttempts := Nat.not_le.mpr hlt
  refine ⟨?_, ?_, ?_, ?_, ?_⟩ <;>
    simp [handleClose, scheduleReconnect, hman, hauto, hnle]

theorem handleClose_fields_max (cfg : EventsModuleConfig) (s : ModState)
    (hman : s.isManualDisconnect = false) (hauto : cfg.autoReconnect = true)
    (hge : cfg.maxReconnectAttempts ≤ s.reconnectAttempts) :
    (handleClose cfg s).reconnectAttempts = s.reconnectAttempts
      ∧ (handleClose cfg s).scheduledDelays = s.scheduledDelays
      ∧ (handleClose cfg s).emits
          = s.emits ++ [EmitEvent.disconnectEv, EmitEvent.errorMaxAttempts]
      ∧ (handleClose cfg s).isManualDisconnect = false := by
  refine ⟨?_, ?_, ?_, ?_⟩ <;>
    simp [handleClose, scheduleReconnect, hman, hauto, hge]

theorem runCloses_characterization (cfg : EventsModuleConfig)
    (hauto : cfg.autoReconnect = true) (k : Nat) :
    ∀ s : ModState, s.isManualDisconnect = false →
      s.reconnectAttempts ≤ cfg.maxReconnectAttempts →
      (runCloses cfg s k).reconnectAttempts
          = min (s.reconnectAttempts + k) cfg.maxReconnectAttempts
        ∧ (runCloses cfg s k).scheduledDelays
            = s.scheduledDelays
              ++ (List.range (min k (cfg.maxReconnectAttempts - s.reconnectAttempts))).map
                  (fun j => reconnectBackoffDelay cfg (s.reconnectAttempts + j + 1))
        ∧ (runCloses cfg s k).emits.count EmitEvent.errorMaxAttempts
            = s.emits.count EmitEvent.errorMaxAttempts
              + (k - (cfg.maxReconnectAttempts - s.reconnectAttempts)) := by
  induction k with
  | zero =>
    intro s hman ha
    refine ⟨?_, ?_, ?_⟩
    · simpa [runCloses] using Nat.min_eq_left ha
    · simp [runCloses]
    · simp [runCloses]
  | succ k ih =>
    intro s hman ha
    have hrun : runCloses cfg s (k + 1) = runCloses cfg (handleClose cfg s) k := rfl
    by_cases hlt : s.reconnectAttempts < cfg.maxReconnectAttempts
    · obtain ⟨hA, hD, hE, hM, _⟩ := handleClose_fields cfg s hman hauto hlt
      obtain ⟨ih1, ih2, ih3⟩ := ih (handleClose cfg s) hM (by rw [hA]; omega)
      refine ⟨?_, ?_, ?_⟩
      · rw [hrun, ih1, hA]
        omega
      · rw [hrun, ih2, hD, hA]
        have hm : min k (cfg.maxReconnectAttempts - (s.reconnectAttempts + 1)) + 1
            = min (k + 1) (cfg.maxReconnectAttempts - s.reconnectAttempts) := by
          omega
        rw [← hm, List.range_succ_eq_map, List.map_cons, List.map_map]
        have hf : ((fun j => reconnectBackoffDelay cfg (s.reconnectAttempts + j + 1))
              ∘ Nat.succ)
            = fun j => reconnectBackoffDelay cfg (s.reconnectAttempts + 1 + j + 1) := by
          funext j
          simp only [Function.comp_apply]
          congr 1
          omega
        rw [hf]
        simp
      · rw [hrun, ih3, hE, hA, List.count_append]
        have h0 : List.count EmitEvent.errorMaxAttempts
            [EmitEvent.disconnectEv, EmitEvent.reconnecting (s.reconnectAttempts + 1)]
            = 0 := by
          simp [List.count_cons]
        rw [h0]
        omega
    · have hge : cfg.maxReconnectAttempts ≤ s.reconnectAttempts := Nat.not_lt.mp hlt
      obtain ⟨hA, hD, hE, hM⟩ := handleClose_fields_max cfg s hman hauto hge
      obtain ⟨ih1, ih2, ih3⟩ := ih (handleClose cfg s) hM (by rw [hA]; omega)
      refine ⟨?_, ?_, ?_⟩
      · rw [hrun, ih1, hA]
        omega
      · rw [hrun, ih2, hD, hA]
        have h1 : cfg.maxReconnectAttempts - s.reconnectAttempts = 0 := by omega
        simp [h1]
      · rw [hrun, ih3, hE, hA, List.count_append]
        have h0 : List.count EmitEvent.errorMaxAttempts
            [EmitEvent.disconnectEv, EmitEvent.errorMaxAttempts] = 1 := by
          simp [List.count_cons]
        rw [h0]
        omega

/-! ## Claim theorems C1, C2, C3, C7 -/

/-- C1: for every automatic reconnect attempt number `n ≥ 1` (auto-reconnect
on, `n ≤ maxReconnectAttempts`), the delay scheduled before the `n`-th
attempt is `min(reconnectDelay * 2^(n-1), maxReconnectDelay)`; the attempt
counter is incremented to `n` before the retry timer is set, and the
backoff sequence is monotonically non-decreasing and capped at
`maxReconnectDelay`. -/
theorem reconnect_backoff_delay_formula (cfg : EventsModuleConfig) (s : ModState) (n : Nat)
    (hauto : cfg.autoReconnect = true) (hman : s.isManualDisconnect = false)
    (h1 : 1 ≤ n) (h2 : n ≤ cfg.maxReconnectAttempts)
    (ha : s.reconnectAttempts = n - 1) :
    (handleClose cfg s).scheduledDelays
        = s.scheduledDelays ++ [min (cfg.reconnectDelay * 2 ^ (n - 1)) cfg.maxReconnectDelay]
      ∧ (handleClose cfg s).reconnectAttempts = n
      ∧ (handleClose cfg s).reconnectTimer = true
      ∧ (∀ m, reconnectBackoffDelay cfg m ≤ reconnectBackoffDelay cfg (m + 1))
      ∧ (∀ m, reconnectBackoffDelay cfg m ≤ cfg.maxReconnectDelay) := by
  have hlt : s.reconnectAttempts < cfg.maxReconnectAttempts := by omega
  have hn : s.reconnectAttempts + 1 = n := by omega
  obtain ⟨hA, hD, _, _, hT⟩ := handleClose_fields cfg s hman hauto hlt
  refine ⟨?_, ?_, hT, reconnectBackoffDelay_mono cfg, reconnectBackoffDelay_le_max cfg⟩
  · rw [hD, hn]
    rfl
  · rw [hA, hn]

/-- Witness for C1: with the default configuration and two prior attempts,
the third close schedules a 4000 ms retry and the counter reaches 3. -/
theorem reconnect_backoff_delay_formula_witness :
    (handleClose DEFAULT_CONFIG { modInit with reconnectAttempts := 2 }).scheduledDelays
        = [4000]
      ∧ (handleClose DEFAULT_CONFIG
          { modInit with reconnectAttempts := 2 }).reconnectAttempts = 3 := by
  have h := reconnect_backoff_delay_formula DEFAULT_CONFIG
    { modInit with reconnectAttempts := 2 } 3 rfl rfl (by decide) (by decide) rfl
  exact ⟨by simpa using h.1, h.2.1⟩

/-- C2: with auto-reconnect on and `maxReconnectAttempts = N`, a run of `k`
consecutive involuntary closes schedules exactly `min k N` reconnect
attempts, at the backoff delays for attempts `1, 2, ...`; every close past
the `N`-th schedules nothing and emits the terminal
`Max reconnect attempts reached` error (`k - N` such error events in
total), so after the `N`-th attempt no further retry is ever scheduled. -/
theorem reconnect_stops_after_max_attempts (cfg : EventsModuleConfig)
    (hauto : cfg.autoReconnect = true) (k : Nat) :
    (runCloses cfg modInit k).scheduledDelays
        = (List.range (min k cfg.maxReconnectAttempts)).map
            (fun j => reconnectBackoffDelay cfg (j + 1))
      ∧ (runCloses cfg modInit k).scheduledDelays.length = min k cfg.maxReconnectAttempts
      ∧ (runCloses cfg modInit k).emits.count EmitEvent.errorMaxAttempts
          = k - cfg.maxReconnectAttempts := by
  obtain ⟨h1, h2, h3⟩ := runCloses_characterization cfg hauto k modInit rfl (by simp [modInit])
  have e1 : modInit.scheduledDelays = [] := rfl
  have e2 : modInit.reconnectAttempts = 0 := rfl
  have e3 : modInit.emits = [] := rfl
  rw [e1, e2] at h2
  rw [e2, e3] at h3
  refine ⟨?_, ?_, ?_⟩
  · simpa using h2
  · rw [h2]
    simp
  · simpa using h3

/-- A configuration with `maxReconnectAttempts = 3` (the scenario of the
spec), other fields as in `DEFAULT_CONFIG`. -/
def testConfig3 : EventsModuleConfig :=
  { pingInterval := 30000
    autoReconnect := true
    maxReconnectAttempts := 3
    reconnectDelay := 1000
    maxReconnectDelay := 30000
    debug := false }

/-- Witness for C2: `maxReconnectAttempts = 3`, four closes: delays
`1000, 2000, 4000`, then one terminal error event. -/
theorem reconnect_stops_after_max_attempts_witness :
    (runCloses testConfig3 modInit 4).scheduledDelays = [1000, 2000, 4000]
      ∧ (runCloses testConfig3 modInit 4).emits.count EmitEvent.errorMaxAttempts = 1 := by
  have h := reconnect_stops_after_max_attempts testConfig3 rfl 4
  refine ⟨?_, ?_⟩
  · rw [h.1]
    decide
  · rw [h.2.2]
    decide

/-- C3: resubscription replay runs exactly when a `connected` frame arrives
while the reconnect-attempt counter is nonzero; a `connect()` call resets
the counter first, so a first or manual connect never replays; the replay
sends exactly one `subscribe` frame per durable subscription (using its
originally-recorded domain/resource/options), and which frames are sent is
independent of the per-request confirm/timeout outcomes — a single failure
does not abort the remaining replays. -/
theorem resubscribe_replay_on_reconnect_only :
    (∀ s : ModState, (handleConnectedMsg s).2 = true ↔ s.reconnectAttempts ≠ 0)
      ∧ (∀ s : ModState, (handleConnectedMsg (connectCall s)).2 = false)
      ∧ (∀ s : ModState, (handleConnectedMsg s).1.reconnectAttempts = 0)
      ∧ (∀ (ids : Nat → String) (outcomes : Nat → Bool) (i : Nat)
          (subs : List (String × SubInfo)),
          (resubscribeAll ids outcomes i subs).1.length = subs.length)
      ∧ (∀ (ids : Nat → String) (o1 o2 : Nat → Bool) (i : Nat)
          (subs : List (String × SubInfo)),
          (resubscribeAll ids o1 i subs).1 = (resubscribeAll ids o2 i subs).1) := by
  refine ⟨?_, ?_, ?_, ?_, ?_⟩
  · intro s
    simp [handleConnectedMsg]
  · intro s
    simp [handleConnectedMsg, connectCall]
  · intro s
    simp [handleConnectedMsg]
  · intro ids outcomes i subs
    induction subs generalizing i with
    | nil => rfl
    | cons p rest ihs => simp [resubscribeAll, ihs]
  · intro ids o1 o2 i subs
    induction subs generalizing i with
    | nil => rfl
    | cons p rest ihs => simp [resubscribeAll, ihs]

/-- C7: `disconnect()` is idempotent and, in one call: flags the closure as
voluntary (so the resulting close schedules no reconnect), cancels the
keep-alive and pending-reconnect timers, rejects every pending
subscription request with `Connection closed`, and closes the socket with
normal-closure code 1000 whenever a socket is present. -/
theorem disconnect_idempotent_cleanup :
    ∀ (cfg : EventsModuleConfig) (s : ModState),
      disconnect (disconnect s) = disconnect s
        ∧ (disconnect s).isManualDisconnect = true
        ∧ (disconnect s).pingTimer = false
        ∧ (disconnect s).reconnectTimer = false
        ∧ (disconnect s).pending = []
        ∧ (disconnect s).rejections = s.rejections ++ s.pending.map Prod.fst
        ∧ (disconnect s).closeCalls
            = s.closeCalls ++ (if s.wsPresent then [CloseArg.code 1000] else [])
        ∧ (handleClose cfg (disconnect s)).scheduledDelays = (disconnect s).scheduledDelays
        ∧ (handleClose cfg (disconnect s)).reconnectAttempts
            = (disconnect s).reconnectAttempts := by
  intro cfg s
  by_cases h : s.wsPresent
  · refine ⟨?_, ?_, ?_, ?_, ?_, ?_, ?_, ?_, ?_⟩ <;>
      simp [disconnect, cleanup, handleClose, h]
  · refine ⟨?_, ?_, ?_, ?_, ?_, ?_, ?_, ?_, ?_⟩ <;>
      simp [disconnect, cleanup, handleClose, h]

/-! ## Subscription registry machine

Operations that drive the registry while the socket is `OPEN`:
`subscribe()` calls (events.ts:842-898, with the locally generated id made
explicit), inbound `subscription_confirmed` frames
(`_handleSubscriptionConfirmed`, events.ts:1119-1136), `unsubscribe()`
calls (events.ts:905-928), inbound `unsubscribed` frames
(events.ts:1092-1094), the 10 s confirmation timeout of one pending
request (events.ts:891-896), and `_cleanup`'s rejection of all pending
requests on connection closure (events.ts:1238-1242). -/

inductive RegOp
  | subscribeCall (id : String) (info : SubInfo)
  | confirmFrame (id domain resource filters : String)
  | unsubscribeCall (id : String)
  | unsubscribedFrame (id : String)
  | subTimeout (id : String)
  | connClosed
deriving DecidableEq

/-- Registry-relevant fields of the module: the durable table
`subscriptions`, the `pendingSubscriptions` map, and ghost traces of sent
frames and of every invocation of a pending request's `resolve`/`reject`
callback (`settles`, one entry per invocation, recording the request id). -/
structure RegistryState where
  subscriptions : List (String × SubInfo)
  pending : List (String × SubInfo)
  sentFrames : List OutFrame
  settles : List String
deriving DecidableEq

def regInit : RegistryState :=
  { subscriptions := [], pending := [], sentFrames := [], settles := [] }

def regStep (s : RegistryState) : RegOp → RegistryState
  | RegOp.subscribeCall id info =>
      { s with
          pending := mapSet s.pending id info
          sentFrames := s.sentFrames
            ++ [OutFrame.subscribe id info.domain info.resource info.options] }
  | RegOp.confirmFrame id _ _ _ =>
      match mapGet s.pending id with
      | some info =>
          { s with
              pending := mapDelete s.pending id
              subscriptions := mapSet s.subscriptions id info
              settles := s.settles ++ [id] }
      | none => s
  | RegOp.unsubscribeCall id =>
      { s with
          subscriptions := mapDelete s.subscriptions id
          sentFrames := s.sentFrames ++ [OutFrame.unsubscribe id] }
  | RegOp.unsubscribedFrame id =>
      { s with subscriptions := mapDelete s.subscriptions id }
  | RegOp.subTimeout id =>
      if mapHas s.pending id then
        { s with pending := mapDelete s.pending id, settles := s.settles ++ [id] }
      else s
  | RegOp.connClosed =>
      { s with settles := s.settles ++ s.pending.map Prod.fst, pending := [] }

def runReg (s : RegistryState) (ops : List RegOp) : RegistryState :=
  ops.foldl regStep s

/-- Spec-side view of the registry, written from the spec's words: the
durable table holds exactly the subscriptions confirmed by the server and
not yet unsubscribed.  A confirmation matching a Pending Subscription
Request moves it into the confirmed table; `unsubscribe` (and a
server-initiated `unsubscribed`) removes it immediately; a timeout or the
connection closing discards pending requests without touching the
confirmed table. -/
structure SpecRegistry where
  pendingRequests : List (String × SubInfo)
  confirmedNotUnsubscribed : List (String × SubInfo)
deriving DecidableEq

def specRegInit : SpecRegistry :=
  { pendingRequests := [], confirmedNotUnsubscribed := [] }

def specRegStep (s : SpecRegistry) : RegOp → SpecRegistry
  | RegOp.subscribeCall id info =>
      { s with pendingRequests := mapSet s.pendingRequests id info }
  | RegOp.confirmFrame id _ _ _ =>
      match mapGet s.pendingRequests id with
      | some info =>
          { pendingRequests := mapDelete s.pendingRequests id
            confirmedNotUnsubscribed := mapSet s.confirmedNotUnsubscribed id info }
      | none => s
  | RegOp.unsubscribeCall id =>
      { s with confirmedNotUnsubscribed := mapDelete s.confirmedNotUnsubscribed id }
  | RegOp.unsubscribedFrame id =>
      { s with confirmedNotUnsubscribed := mapDelete s.confirmedNotUnsubscribed id }
  | RegOp.subTimeout id =>
      { s with pendingRequests := mapDelete s.pendingRequests id }
  | RegOp.connClosed => { s with pendingRequests := [] }

def runSpecReg (s : SpecRegistry) (ops : List RegOp) : SpecRegistry :=
  ops.foldl specRegStep s

theorem mapHas_false_get_none {α : Type} (m : List (String × α)) (k : String)
    (h : mapHas m k = false) : mapGet m k = none := by
  cases hg : mapGet m k with
  | none => rfl
  | some v =>
    rw [mapHas, hg] at h
    simp at h

theorem mapDelete_not_has {α : Type} (m : List (String × α)) (k : String)
    (h : mapGet m k = none) : mapDelete m k = m := by
  induction m with
  | nil => rfl
  | cons p rest ih =>
    by_cases hp : p.1 = k
    · rw [mapGet, if_pos hp] at h
      cases h
    · rw [mapGet, if_neg hp] at h
      simp [mapDelete, hp, ih h]

theorem regSim (ops : List RegOp) : ∀ (c : RegistryState) (s : SpecRegistry),
    c.pending = s.pendingRequests →
    c.subscriptions = s.confirmedNotUnsubscribed →
    (runReg c ops).pending = (runSpecReg s ops).pendingRequests
      ∧ (runReg c ops).subscriptions = (runSpecReg s ops).confirmedNotUnsubscribed := by
  induction ops with
  | nil =>
    intro c s h1 h2
    exact ⟨h1, h2⟩
  | cons op rest ih =>
    intro c s h1 h2
    have hstep : (regStep c op).pending = (specRegStep s op).pendingRequests
        ∧ (regStep c op).subscriptions = (specRegStep s op).confirmedNotUnsubscribed := by
      cases op with
      | subscribeCall id info => simp [regStep, specRegStep, h1, h2]
      | confirmFrame id d r f =>
        cases hg : mapGet s.pendingRequests id with
        | some info => simp [regStep, specRegStep, h1, h2, hg]
        | none => simp [regStep, specRegStep, h1, h2, hg]
      | unsubscribeCall id => simp [regStep, specRegStep, h1, h2]
      | unsubscribedFrame id => simp [regStep, specRegStep, h1, h2]
      | subTimeout id =>
        by_cases hh : mapHas c.pending id
        · have hh' : mapHas s.pendingRequests id = true := by rwa [← h1]
          simp [regStep, specRegStep, hh, hh', h1, h2]
        · have hh' : mapHas s.pendingRequests id = false := by
            rw [← h1]
            exact Bool.eq_false_iff.mpr hh
          have hn : mapGet s.pendingRequests id = none :=
            mapHas_false_get_none _ _ hh'
          simp [regStep, specRegStep, hh, hh', h1, h2, mapDelete_not_has _ _ hn]
      | connClosed => simp [regStep, specRegStep, h1, h2]
    have hrest := ih (regStep c op) (specRegStep s op) hstep.1 hstep.2
    simpa [runReg, runSpecReg] using hrest

/-- C4: the durable subscription table tracks exactly the
confirmed-and-not-yet-unsubscribed subscriptions (a subscription enters
the table only when a `subscription_confirmed` frame resolves the matching
pending request), and `unsubscribe(id)` removes `id` from the table in the
same step in which the unsubscribe frame is sent, without waiting for any
server acknowledgement. -/
theorem durable_table_matches_confirmed :
    (∀ ops : List RegOp,
        (runReg regInit ops).subscriptions
          = (runSpecReg specRegInit ops).confirmedNotUnsubscribed)
      ∧ (∀ (s : RegistryState) (id : String),
          regStep s (RegOp.unsubscribeCall id)
            = { s with
                  subscriptions := mapDelete s.subscriptions id
                  sentFrames := s.sentFrames ++ [OutFrame.unsubscribe id] }) := by
  constructor
  · intro ops
    exact (regSim ops regInit specRegInit rfl rfl).2
  · intro s id
    rfl

/-! ## Settle-once accounting for pending subscription requests -/

/-- The ids of the `subscribe()` calls in an operation sequence (the
locally generated UUIDs; `_generateId` makes them fresh). -/
def subCallIds : List RegOp → List String
  | [] => []
  | RegOp.subscribeCall id _ :: rest => id :: subCallIds rest
  | _ :: rest => subCallIds rest

/-- 1 when a pending request with this id exists, else 0. -/
def pendingFlag (s : RegistryState) (id : String) : Nat :=
  if mapHas s.pending id then 1 else 0

theorem mapHas_mapSet_self {α : Type} (m : List (String × α)) (k : String) (v : α) :
    mapHas (mapSet m k v) k = true := by
  simp [mapHas, mapGet_mapSet_self]

theorem mapHas_mapDelete_self {α : Type} (m : List (String × α)) (k : String) :
    mapHas (mapDelete m k) k = false := by
  simp [mapHas, mapGet_mapDelete_self]

theorem regStep_nodup (s : RegistryState) (op : RegOp)
    (h : (s.pending.map Prod.fst).Nodup) :
    ((regStep s op).pending.map Prod.fst).Nodup := by
  cases op with
  | subscribeCall id info =>
    simpa [regStep] using keys_mapSet_nodup s.pending id info h
  | confirmFrame id d r f =>
    cases hg : mapGet s.pending id with
    | some info => simpa [regStep, hg] using nodup_keys_mapDelete s.pending id h
    | none => simpa [regStep, hg] using h
  | unsubscribeCall id => simpa [regStep] using h
  | unsubscribedFrame id => simpa [regStep] using h
  | subTimeout id =>
    by_cases hh : mapHas s.pending id
    · simpa [regStep, hh] using nodup_keys_mapDelete s.pending id h
    · simpa [regStep, hh] using h
  | connClosed => simp [regStep]

theorem phi_step (s : RegistryState) (op : RegOp) (id : String)
    (hnd : (s.pending.map Prod.fst).Nodup) :
    (regStep s op).settles.count id + pendingFlag (regStep s op) id
      ≤ s.settles.count id + pendingFlag s id + (subCallIds [op]).count id := by
  cases op with
  | subscribeCall id' info =>
    have hs : (regStep s (RegOp.subscribeCall id' info)).settles = s.settles := rfl
    have hp : (regStep s (RegOp.subscribeCall id' info)).pending
        = mapSet s.pending id' info := rfl
    by_cases he : id = id'
    · subst he
      have h1 : pendingFlag (regStep s (RegOp.subscribeCall id info)) id = 1 := by
        simp [pendingFlag, hp, mapHas_mapSet_self]
      have h2 : (subCallIds [RegOp.subscribeCall id info]).count id = 1 := by
        simp [subCallIds]
      rw [hs, h1, h2]
      unfold pendingFlag
      split <;> omega
    · have h1 : pendingFlag (regStep s (RegOp.subscribeCall id' info)) id
          = pendingFlag s id := by
        simp [pendingFlag, hp, mapHas, mapGet_mapSet_ne s.pending info he]
      have h2 : (subCallIds [RegOp.subscribeCall id' info]).count id = 0 := by
        simp [subCallIds, List.count_cons, Ne.symm he]
      rw [hs, h1, h2]
      omega
  | confirmFrame id' d r f =>
    cases hg : mapGet s.pending id' with
    | none =>
      have h0 : regStep s (RegOp.confirmFrame id' d r f) = s := by
        simp [regStep, hg]
      simp [h0, subCallIds]
    | some info =>
      have hs : (regStep s (RegOp.confirmFrame id' d r f)).settles
          = s.settles ++ [id'] := by simp [regStep, hg]
      have hp : (regStep s (RegOp.confirmFrame id' d r f)).pending
          = mapDelete s.pending id' := by simp [regStep, hg]
      have hc : (subCallIds [RegOp.confirmFrame id' d r f]).count id = 0 := by
        simp [subCallIds]
      rw [hs, List.count_append, hc]
      by_cases he : id = id'
      · subst he
        have h1 : pendingFlag (regStep s (RegOp.confirmFrame id d r f)) id = 0 := by
          simp [pendingFlag, hp, mapHas_mapDelete_self]
        have h2 : pendingFlag s id = 1 := by
          simp [pendingFlag, mapHas, hg]
        have h3 : List.count id [id] = 1 := by simp
        rw [h1, h2, h3]
      · have h1 : pendingFlag (regStep s (RegOp.confirmFrame id' d r f)) id
            = pendingFlag s id := by
          simp [pendingFlag, hp, mapHas, mapGet_mapDelete_ne s.pending he]
        have h3 : List.count id [id'] = 0 := by
          simp [List.count_cons, Ne.symm he]
        rw [h1, h3]
        omega
  | unsubscribeCall id' => simp [regStep, pendingFlag, subCallIds]
  | unsubscribedFrame id' => simp [regStep, pendingFlag, subCallIds]
  | subTimeout id' =>
    by_cases hh : mapHas s.pending id'
    · have hs : (regStep s (RegOp.subTimeout id')).settles = s.settles ++ [id'] := by
        simp [regStep, hh]
      have hp : (regStep s (RegOp.subTimeout id')).pending = mapDelete s.pending id' := by
        simp [regStep, hh]
      have hc : (subCallIds [RegOp.subTimeout id']).count id = 0 := by
        simp [subCallIds]
      rw [hs, List.count_append, hc]
      by_cases he : id = id'
      · subst he
        have h1 : pendingFlag (regStep s (RegOp.subTimeout id)) id = 0 := by
          simp [pendingFlag, hp, mapHas_mapDelete_self]
        have h2 : pendingFlag s id = 1 := by simp [pendingFlag, hh]
        have h3 : List.count id [id] = 1 := by simp
        rw [h1, h2, h3]
      · have h1 : pendingFlag (regStep s (RegOp.subTimeout id')) id = pendingFlag s id := by
          simp [pendingFlag, hp, mapHas, mapGet_mapDelete_ne s.pending he]
        have h3 : List.count id [id'] = 0 := by
          simp [List.count_cons, Ne.symm he]
        rw [h1, h3]
        omega
    · have h0 : regStep s (RegOp.subTimeout id') = s := by simp [regStep, hh]
      simp [h0, subCallIds]
  | connClosed =>
    have hs : (regStep s RegOp.connClosed).settles
        = s.settles ++ s.pending.map Prod.fst := rfl
    have hp : pendingFlag (regStep s RegOp.connClosed) id = 0 := by
      simp [pendingFlag, regStep, mapHas, mapGet]
    have hc : (subCallIds [RegOp.connClosed]).count id = 0 := by simp [subCallIds]
    rw [hs, List.count_append, hp, hc]
    by_cases hm : mapHas s.pending id
    · have hcnt : (s.pending.map Prod.fst).count id ≤ 1 :=
        List.nodup_iff_count_le_one.mp hnd id
      have h2 : pendingFlag s id = 1 := by simp [pendingFlag, hm]
      rw [h2]
      omega
    · have hmem : id ∉ s.pending.map Prod.fst := by
        intro hmem
        exact hm ((mapHas_mem_keys _ _).mpr hmem)
      have hcnt : (s.pending.map Prod.fst).count id = 0 :=
        List.count_eq_zero.mpr hmem
      rw [hcnt]
      omega

theorem phi_run (ops : List RegOp) : ∀ (s : RegistryState) (id : String),
    (s.pending.map Prod.fst).Nodup →
    (runReg s ops).settles.count id + pendingFlag (runReg s ops) id
      ≤ s.settles.count id + pendingFlag s id + (subCallIds ops).count id := by
  induction ops with
  | nil =>
    intro s id h
    simp [runReg, subCallIds]
  | cons op rest ih =>
    intro s id hnd
    have hstep := phi_step s op id hnd
    have hrest := ih (regStep s op) id (regStep_nodup s op hnd)
    have hrun : runReg s (op :: rest) = runReg (regStep s op) rest := by
      simp [runReg]
    have hids : (subCallIds (op :: rest)).count id
        = (subCallIds [op]).count id + (subCallIds rest).count id := by
      cases op <;> simp [subCallIds, List.count_cons] <;> omega
    rw [hrun, hids]
    omega

/-! ## A `_connect()` run (events.ts:708-815)

One invocation of `_connect`: the returned promise is modelled as a
settle-once cell (JS promises ignore late `resolve`/`reject` calls), the
10-second connection timer by the `timerCleared`/`timeoutFire` pair
(`clearTimeout` marks it cleared; a cleared timer never fires), and each
socket callback (`onopen`, `onmessage` with a `connected` or `auth_error`
frame, `onerror`, `onclose`) as one event of the run. -/

inductive WsReady
  | connecting
  | opened
  | closing
  | closed
deriving DecidableEq

inductive ConnErr
  | connectionTimeout
  | missingToken
  | wsError
  | closedBeforeAuth (reason : String)
  | authFailed (msg : String)
deriving DecidableEq

inductive PromiseState
  | pending
  | resolvedConn (userId : String)
  | rejectedConn (e : ConnErr)
deriving DecidableEq

/-- First settlement wins; later `resolve`/`reject` calls are no-ops
(native JS promise semantics). -/
def settle (p q : PromiseState) : PromiseState :=
  match p with
  | PromiseState.pending => q
  | _ => p

inductive ConnEvent
  | wsOpen
  | timeoutFire
  | msgConnected (userId : String)
  | msgAuthError (err : String)
  | wsError
  | wsClose (code : Nat) (reason : String)
deriving DecidableEq

structure ConnectRunState where
  wsPresent : Bool
  wsReady : WsReady
  timerCleared : Bool
  isConnecting : Bool
  hasAuthResolve : Bool
  hasAuthReject : Bool
  promise : PromiseState
  sentFrames : List OutFrame
  closeCalls : List CloseArg
  bearerToken : Option String
  pingTimer : Bool
deriving DecidableEq

/-- State right after `_connect` stores `authResolve`/`authReject`, builds
the URL and constructs the WebSocket (events.ts:710-724). -/
def connectRunInit (token : Option String) : ConnectRunState :=
  { wsPresent := true
    wsReady := WsReady.connecting
    timerCleared := false
    isConnecting := true
    hasAuthResolve := true
    hasAuthReject := true
    promise := PromiseState.pending
    sentFrames := []
    closeCalls := []
    bearerToken := token
    pingTimer := false }

def connStep (s : ConnectRunState) : ConnEvent → ConnectRunState
  | ConnEvent.timeoutFire =>
      -- events.ts:724-732; a timer that was cleared never fires.
      if s.timerCleared then s
      else if s.wsPresent && !(s.wsReady == WsReady.opened) then
        { s with
            timerCleared := true
            closeCalls := s.closeCalls ++ [CloseArg.noCode]
            wsReady := WsReady.closing
            isConnecting := false
            hasAuthResolve := false
            hasAuthReject := false
            promise := settle s.promise
              (PromiseState.rejectedConn ConnErr.connectionTimeout) }
      else { s with timerCleared := true }
  | ConnEvent.wsOpen =>
      -- events.ts:734-761
      match s.bearerToken with
      | some t =>
          { s with
              wsReady := WsReady.opened
              timerCleared := true
              sentFrames := s.sentFrames ++ [OutFrame.auth t] }
      | none =>
          { s with
              wsReady := WsReady.closing
              timerCleared := true
              isConnecting := false
              hasAuthResolve := false
              hasAuthReject := false
              closeCalls := s.closeCalls ++ [CloseArg.code 1008]
              promise := settle s.promise
                (PromiseState.rejectedConn ConnErr.missingToken) }
  | ConnEvent.msgConnected uid =>
      -- events.ts:1054-1074 (`case 'connected'`)
      if s.hasAuthResolve then
        { s with
            isConnecting := false
            pingTimer := true
            hasAuthResolve := false
            hasAuthReject := false
            promise := settle s.promise (PromiseState.resolvedConn uid) }
      else { s with isConnecting := false, pingTimer := true }
  | ConnEvent.msgAuthError e =>
      -- events.ts:1076-1086 (`case 'auth_error'`)
      if s.hasAuthReject then
        { s with
            isConnecting := false
            hasAuthResolve := false
            hasAuthReject := false
            promise := settle s.promise
              (PromiseState.rejectedConn (ConnErr.authFailed e))
            closeCalls := s.closeCalls ++ [CloseArg.code 1008]
            wsReady := WsReady.closing }
      else
        { s with
            isConnecting := false
            closeCalls := s.closeCalls ++ [CloseArg.code 1008]
            wsReady := WsReady.closing }
  | ConnEvent.wsError =>
      -- events.ts:774-784
      { s with
          timerCleared := true
          isConnecting := false
          hasAuthResolve := false
          hasAuthReject := false
          promise := settle s.promise (PromiseState.rejectedConn ConnErr.wsError) }
  | ConnEvent.wsClose _ reason =>
      -- events.ts:786-807 (promise-side effects; module-side in `handleClose`)
      if s.hasAuthReject then
        { s with
            timerCleared := true
            pingTimer := false
            isConnecting := false
            wsReady := WsReady.closed
            hasAuthResolve := false
            hasAuthReject := false
            promise := settle s.promise
              (PromiseState.rejectedConn (ConnErr.closedBeforeAuth reason)) }
      else
        { s with
            timerCleared := true
            pingTimer := false
            isConnecting := false
            wsReady := WsReady.closed }

def connRunFrom (s : ConnectRunState) (evs : List ConnEvent) : ConnectRunState :=
  evs.foldl connStep s

def connectRun (token : Option String) (evs : List ConnEvent) : ConnectRunState :=
  connRunFrom (connectRunInit token) evs

theorem settle_of_ne_pending {p : PromiseState} (q : PromiseState)
    (h : p ≠ PromiseState.pending) : settle p q = p := by
  cases p with
  | pending => exact absurd rfl h
  | resolvedConn uid => rfl
  | rejectedConn e => rfl

theorem connStep_promise_stable (s : ConnectRunState) (e : ConnEvent)
    (h : s.promise ≠ PromiseState.pending) : (connStep s e).promise = s.promise := by
  cases e with
  | timeoutFire =>
    simp only [connStep]
    split
    · rfl
    · split
      · simp [settle_of_ne_pending _ h]
      · rfl
  | wsOpen =>
    simp only [connStep]
    cases hb : s.bearerToken with
    | some t => rfl
    | none => simp [settle_of_ne_pending _ h]
  | msgConnected uid =>
    simp only [connStep]
    split
    · simp [settle_of_ne_pending _ h]
    · rfl
  | msgAuthError e' =>
    simp only [connStep]
    split
    · simp [settle_of_ne_pending _ h]
    · rfl
  | wsError => simp [connStep, settle_of_ne_pending _ h]
  | wsClose code reason =>
    simp only [connStep]
    split
    · simp [settle_of_ne_pending _ h]
    · rfl

theorem connRunFrom_promise_stable (evs : List ConnEvent) :
    ∀ s : ConnectRunState, s.promise ≠ PromiseState.pending →
      (connRunFrom s evs).promise = s.promise := by
  induction evs with
  | nil =>
    intro s _
    rfl
  | cons e rest ih =>
    intro s h
    have h1 := connStep_promise_stable s e h
    have h2 := ih (connStep s e) (by rw [h1]; exact h)
    calc (connRunFrom s (e :: rest)).promise
        = (connRunFrom (connStep s e) rest).promise := rfl
      _ = (connStep s e).promise := h2
      _ = s.promise := h1

theorem connStep_no_token (s : ConnectRunState) (e : ConnEvent)
    (h : s.bearerToken = none) :
    (connStep s e).bearerToken = none ∧ (connStep s e).sentFrames = s.sentFrames := by
  cases e with
  | timeoutFire =>
    simp only [connStep]
    split
    · exact ⟨h, rfl⟩
    · split
      · exact ⟨h, rfl⟩
      · exact ⟨h, rfl⟩
  | wsOpen => simp [connStep, h]
  | msgConnected uid =>
    simp only [connStep]
    split
    · exact ⟨h, rfl⟩
    · exact ⟨h, rfl⟩
  | msgAuthError e' =>
    simp only [connStep]
    split
    · exact ⟨h, rfl⟩
    · exact ⟨h, rfl⟩
  | wsError => exact ⟨h, rfl⟩
  | wsClose code reason =>
    simp only [connStep]
    split
    · exact ⟨h, rfl⟩
    · exact ⟨h, rfl⟩

theorem connRunFrom_no_token (evs : List ConnEvent) :
    ∀ s : ConnectRunState, s.bearerToken = none →
      (connRunFrom s evs).sentFrames = s.sentFrames
        ∧ (connRunFrom s evs).bearerToken = none := by
  induction evs with
  | nil =>
    intro s h
    exact ⟨rfl, h⟩
  | cons e rest ih =>
    intro s h
    obtain ⟨htok, hfr⟩ := connStep_no_token s e h
    obtain ⟨ih1, ih2⟩ := ih (connStep s e) htok
    exact ⟨ih1.trans hfr, ih2⟩

theorem connStep_closeCalls_mem (s : ConnectRunState) (e : ConnEvent) (c : CloseArg)
    (h : c ∈ s.closeCalls) : c ∈ (connStep s e).closeCalls := by
  cases e with
  | timeoutFire =>
    simp only [connStep]
    split
    · exact h
    · split
      · simp only [List.mem_append]
        exact Or.inl h
      · exact h
  | wsOpen =>
    simp only [connStep]
    cases hb : s.bearerToken with
    | some t => exact h
    | none =>
      simp only [List.mem_append]
      exact Or.inl h
  | msgConnected uid =>
    simp only [connStep]
    split
    · exact h
    · exact h
  | msgAuthError e' =>
    simp only [connStep]
    split
    · simp only [List.mem_append]
      exact Or.inl h
    · simp only [List.mem_append]
      exact Or.inl h
  | wsError => exact h
  | wsClose code reason =>
    simp only [connStep]
    split
    · exact h
    · exact h

theorem connRunFrom_closeCalls_mem (evs : List ConnEvent) :
    ∀ (s : ConnectRunState) (c : CloseArg), c ∈ s.closeCalls →
      c ∈ (connRunFrom s evs).closeCalls := by
  induction evs with
  | nil =>
    intro s c h
    exact h
  | cons e rest ih =>
    intro s c h
    exact ih (connStep s e) c (connStep_closeCalls_mem s e c h)

/-! ## Claim theorems C5, C6, C8 -/

/-- C5 counterexample: the socket opens (at which point `onopen` clears the
10 s connection timer), the server never answers the auth handshake, and
the timer's firing moment passes — the `connect()` promise is still
pending, not rejected with a timeout. -/
theorem connect_timeout_cleared_on_open_cex :
    (connectRun (some "tok") [ConnEvent.wsOpen, ConnEvent.timeoutFire]).promise
      = PromiseState.pending := by decide

/-- C5 (amended): the 10-second timer rejects `connect()` with
`Connection timeout` only when it fires while the socket has not reached
the OPEN state (and the timer was not yet cleared); the transport-level
`onopen` clears the timer, so a run in which the socket opened but the
handshake is never answered produces no timeout rejection. -/
theorem connect_timeout_only_before_open (s : ConnectRunState)
    (h1 : s.timerCleared = false) (h2 : s.wsPresent = true)
    (h3 : s.wsReady ≠ WsReady.opened) (h4 : s.promise = PromiseState.pending) :
    (connStep s ConnEvent.timeoutFire).promise
        = PromiseState.rejectedConn ConnErr.connectionTimeout
      ∧ (connStep s ConnEvent.wsOpen).timerCleared = true := by
  constructor
  · have hc : (s.wsReady == WsReady.opened) = false := by
      simpa using h3
    simp [connStep, h1, h2, hc, h4, settle]
  · cases hb : s.bearerToken with
    | some t => simp [connStep, hb]
    | none => simp [connStep, hb]

/-- Witness for C5 (amended): from the freshly created connection state the
timer firing rejects the promise with the timeout error. -/
theorem connect_timeout_only_before_open_witness :
    (connStep (connectRunInit (some "x")) ConnEvent.timeoutFire).promise
      = PromiseState.rejectedConn ConnErr.connectionTimeout :=
  (connect_timeout_only_before_open (connectRunInit (some "x"))
    rfl rfl (by decide) rfl).1

/-- C6: a `connect()` call with no stored bearer token is aborted at
transport open: the promise rejects with the missing-credential error, the
socket is closed with policy-violation code 1008, and no frame is ever
sent on the wire during the run. -/
theorem connect_without_token_aborts (evs : List ConnEvent) :
    (connectRun none (ConnEvent.wsOpen :: evs)).promise
        = PromiseState.rejectedConn ConnErr.missingToken
      ∧ CloseArg.code 1008 ∈ (connectRun none (ConnEvent.wsOpen :: evs)).closeCalls
      ∧ (connectRun none (ConnEvent.wsOpen :: evs)).sentFrames = [] := by
  have h0 : connectRun none (ConnEvent.wsOpen :: evs)
      = connRunFrom (connStep (connectRunInit none) ConnEvent.wsOpen) evs := rfl
  have hprom : (connStep (connectRunInit none) ConnEvent.wsOpen).promise
      = PromiseState.rejectedConn ConnErr.missingToken := by decide
  have htok : (connStep (connectRunInit none) ConnEvent.wsOpen).bearerToken = none := by
    decide
  have hclose : CloseArg.code 1008
      ∈ (connStep (connectRunInit none) ConnEvent.wsOpen).closeCalls := by decide
  have hfr : (connStep (connectRunInit none) ConnEvent.wsOpen).sentFrames = [] := by
    decide
  refine ⟨?_, ?_, ?_⟩
  · rw [h0, connRunFrom_promise_stable evs _ (by rw [hprom]; intro hx; cases hx)]
    exact hprom
  · rw [h0]
    exact connRunFrom_closeCalls_mem evs _ _ hclose
  · rw [h0]
    exact ((connRunFrom_no_token evs _ htok).1).trans hfr

/-- C8: every pending `subscribe()` request settles at most once — over any
operation sequence with fresh subscription ids, each id's
`resolve`/`reject` callback is invoked at most one time (a confirmation
first deletes the pending entry, a timeout checks-then-deletes, closure
clears the map) — and the `connect()` promise, once settled, is never
changed by any later confirmation, timeout firing, error or closure. -/
theorem pending_settle_at_most_once :
    (∀ ops : List RegOp, (subCallIds ops).Nodup →
        ∀ id : String, (runReg regInit ops).settles.count id ≤ 1)
      ∧ (∀ (token : Option String) (evs more : List ConnEvent),
          (connectRun token evs).promise ≠ PromiseState.pending →
          (connectRun token (evs ++ more)).promise
            = (connectRun token evs).promise) := by
  constructor
  · intro ops hnod id
    have h := phi_run ops regInit id (by simp [regInit])
    have hcnt : (subCallIds ops).count id ≤ 1 :=
      List.nodup_iff_count_le_one.mp hnod id
    have h0 : regInit.settles.count id = 0 := rfl
    have h0' : pendingFlag regInit id = 0 := rfl
    omega
  · intro token evs more h
    have happ : connectRun token (evs ++ more)
        = connRunFrom (connectRun token evs) more := by
      simp [connectRun, connRunFrom, List.foldl_append]
    rw [happ]
    exact connRunFrom_promise_stable more (connectRun token evs) h

/-- A small operation sequence for the C8 witness: subscribe, confirm, then
a late timeout firing and a connection closure for the same id. -/
def c8ops : List RegOp :=
  [RegOp.subscribeCall "a" { domain := "chat", resource := "message", options := none },
    RegOp.confirmFrame "a" "chat" "message" "f",
    RegOp.subTimeout "a",
    RegOp.connClosed]

/-- Witness for C8: the confirmed-then-timed-out-then-closed request "a" is
settled exactly once, and a `wsClose` arriving after the `connected`
acknowledgement does not change the resolved `connect()` promise. -/
theorem pending_settle_at_most_once_witness :
    (runReg regInit c8ops).settles.count "a" ≤ 1
      ∧ (connectRun (some "t") ([ConnEvent.wsOpen, ConnEvent.msgConnected "u"]
            ++ [ConnEvent.wsClose 1006 "gone"])).promise
          = (connectRun (some "t") [ConnEvent.wsOpen, ConnEvent.msgConnected "u"]).promise := by
  constructor
  · exact pending_settle_at_most_once.1 c8ops (by decide) "a"
  · exact pending_settle_at_most_once.2 (some "t") _ _ (by decide)

/-! ## `_emit` (events.ts:1138-1152)

`listeners.forEach(cb => { try { cb(...args) } catch (err) { console.error(...) } })`:
each listener either returns normally or throws; a thrown value is caught
and logged, never re-raised.  `escaped` records an exception leaving the
loop (there is none, by the `catch`). -/

inductive ListenerOutcome
  | ok
  | threw (msg : String)
deriving DecidableEq

structure EmitResult where
  invoked : Nat
  logged : List String
  escaped : Option String
deriving DecidableEq

def emitToListeners {α : Type} : List (α → ListenerOutcome) → α → EmitResult
  | [], _ => { invoked := 0, logged := [], escaped := none }
  | cb :: rest, a =>
    let headLog : List String :=
      match cb a with
      | ListenerOutcome.ok => []
      | ListenerOutcome.threw m => [m]
    let r := emitToListeners rest a
    { invoked := r.invoked + 1, logged := headLog ++ r.logged, escaped := r.escaped }

/-- C9: for every event, every registered listener is invoked even when
some listeners throw; each thrown exception is caught and logged (exactly
the thrown messages appear in the log), and no exception escapes back to
the message-handling path. -/
theorem emit_listener_isolation :
    ∀ (α : Type) (cbs : List (α → ListenerOutcome)) (a : α),
      (emitToListeners cbs a).invoked = cbs.length
        ∧ (emitToListeners cbs a).escaped = none
        ∧ (emitToListeners cbs a).logged
            = cbs.filterMap (fun cb =>
                match cb a with
                | ListenerOutcome.ok => none
                | ListenerOutcome.threw m => some m) := by
  intro α cbs a
  induction cbs with
  | nil => exact ⟨rfl, rfl, rfl⟩
  | cons cb rest ih =>
    obtain ⟨ih1, ih2, ih3⟩ := ih
    refine ⟨?_, ?_, ?_⟩
    · simp [emitToListeners, ih1]
    · simp [emitToListeners, ih2]
    · simp only [emitToListeners, List.filterMap_cons]
      cases hc : cb a with
      | ok => simpa [hc] using ih3
      | threw m => simpa [hc] using ih3

/-! ## Heap model for `getSubscriptions` (events.ts:1006-1008)

JS `Map` objects are references into a store; `getSubscriptions` returns
`new Map(this.subscriptions)` — a freshly allocated map holding a copy of
the internal table's entries. -/

structure MapHeap where
  store : List (List (String × SubInfo))
deriving DecidableEq

def readRef (h : MapHeap) (r : Nat) : List (String × SubInfo) :=
  (h.store.get? r).getD []

def writeRef (h : MapHeap) (r : Nat) (v : List (String × SubInfo)) : MapHeap :=
  ⟨h.store.set r v⟩

def allocRef (h : MapHeap) (v : List (String × SubInfo)) : MapHeap × Nat :=
  (⟨h.store ++ [v]⟩, h.store.length)

/-- `getSubscriptions()`: allocate a fresh `Map` initialised with the
current contents of the internal `subscriptions` reference. -/
def getSubscriptions (h : MapHeap) (subsRef : Nat) : MapHeap × Nat :=
  allocRef h (readRef h subsRef)

/-- C10: `getSubscriptions()` returns a fresh copy of the durable table:
the returned map has the same contents as the internal table, is a
different reference, and writing any value through the returned reference
leaves the internal table — and hence the replay behaviour computed from
it — completely unchanged. -/
theorem getSubscriptions_returns_copy (h : MapHeap) (r : Nat)
    (hr : r < h.store.length) :
    readRef (getSubscriptions h r).1 (getSubscriptions h r).2 = readRef h r
      ∧ (getSubscriptions h r).2 ≠ r
      ∧ (∀ v, readRef (writeRef (getSubscriptions h r).1 (getSubscriptions h r).2 v) r
          = readRef h r)
      ∧ (∀ (v : List (String × SubInfo)) (ids : Nat → String)
            (outcomes : Nat → Bool) (i : Nat),
          resubscribeAll ids outcomes i
              (readRef (writeRef (getSubscriptions h r).1 (getSubscriptions h r).2 v) r)
            = resubscribeAll ids outcomes i (readRef h r)) := by
  have hne : h.store.length ≠ r := (Nat.ne_of_lt hr).symm
  have hwrite : ∀ v,
      readRef (writeRef (getSubscriptions h r).1 (getSubscriptions h r).2 v) r
        = readRef h r := by
    intro v
    show (((h.store ++ [readRef h r]).set h.store.length v).get? r).getD [] = _
    rw [List.get?_set_ne _ _ hne, List.get?_append hr]
    rfl
  refine ⟨?_, hne, hwrite, ?_⟩
  · show (((h.store ++ [readRef h r]).get? h.store.length).getD []) = readRef h r
    rw [List.get?_concat_length]
    rfl
  · intro v ids outcomes i
    rw [hwrite v]

/-- A one-cell heap for the C10 witness. -/
def c10heap : MapHeap :=
  ⟨[[("a", { domain := "chat", resource := "message", options := none })]]⟩

/-- Witness for C10: on a concrete heap the returned map equals the
internal table. -/
theorem getSubscriptions_returns_copy_witness :
    0 < c10heap.store.length
      ∧ readRef (getSubscriptions c10heap 0).1 (getSubscriptions c10heap 0).2
          = readRef c10heap 0 :=
  ⟨by decide, (getSubscriptions_returns_copy c10heap 0 (by decide)).1⟩

end HlmrSdk
